import Mathlib

/-!
Verification of the generic collection store of src/app/main.py: a CRUD
backend that keeps each named collection as one JSON array of record
objects and rewrites the whole array on every mutation.

The embedding is shallow: JSON values are an inductive type, a record is
an ordered association list mirroring a Python dict, and each HTTP handler
branch of main.py becomes a pure Lean function from the loaded collection
and the parsed request body to an outcome (status code, response body, the
list handed to save_json, and whether save_json was called).
-/

set_option autoImplicit false

/-- JSON values, as the Python json module parses them. -/
inductive Json where
  | null : Json
  | bool : Bool → Json
  | int : Int → Json
  | str : String → Json
  | arr : List Json → Json
  | obj : List (String × Json) → Json

/-- A record is one JSON object: an ordered association list of fields,
mirroring a Python dict (keys unique in parsed JSON, insertion order kept). -/
abbrev Record := List (String × Json)

/-- Python dict lookup d.get(key): the value at the first matching key. -/
def Record.get : Record → String → Option Json
  | [], _ => none
  | (k, v) :: rest, key => if k = key then some v else Record.get rest key

/-- Python dict assignment d[key] = val: overwrite in place when the key is
present, otherwise append the new pair at the end. -/
def Record.set : Record → String → Json → Record
  | [], key, val => [(key, val)]
  | (k, v) :: rest, key, val =>
      if k = key then (k, val) :: rest else (k, v) :: Record.set rest key val

/-- Python d.setdefault(key, val): append the pair only when the key is absent. -/
def Record.setdefault (r : Record) (key : String) (val : Json) : Record :=
  match Record.get r key with
  | some _ => r
  | none => r ++ [(key, val)]

theorem Record.get_append (r s : Record) (key : String) :
    Record.get (r ++ s) key =
      match Record.get r key with
      | some v => some v
      | none => Record.get s key := by
  induction r with
  | nil => rfl
  | cons p rest ih =>
      obtain ⟨k, v⟩ := p
      by_cases h : k = key
      · simp [Record.get, h]
      · simpa [Record.get, h] using ih

theorem Record.get_set_same (r : Record) (key : String) (val : Json) :
    Record.get (Record.set r key val) key = some val := by
  induction r with
  | nil => simp [Record.set, Record.get]
  | cons p rest ih =>
      obtain ⟨k, v⟩ := p
      by_cases h : k = key
      · simp [Record.set, h, Record.get]
      · simp [Record.set, h, Record.get, ih]

theorem Record.get_set_ne (r : Record) (key key2 : String) (val : Json)
    (h : key ≠ key2) :
    Record.get (Record.set r key val) key2 = Record.get r key2 := by
  induction r with
  | nil => simp [Record.set, Record.get, h]
  | cons p rest ih =>
      obtain ⟨k, v⟩ := p
      by_cases hk : k = key
      · subst hk
        simp [Record.set, Record.get, h]
      · simp [Record.set, hk, Record.get, ih]

theorem Record.set_get_eq (r : Record) (key : String) (val : Json)
    (h : Record.get r key = some val) : Record.set r key val = r := by
  induction r with
  | nil => simp [Record.get] at h
  | cons p rest ih =>
      obtain ⟨k, v⟩ := p
      by_cases hk : k = key
      · subst hk
        simp [Record.get] at h
        simp [Record.set, h]
      · simp [Record.get, hk] at h
        simp [Record.set, hk, ih h]

theorem Record.get_setdefault_ne (r : Record) (key key2 : String) (val : Json)
    (h : key ≠ key2) :
    Record.get (Record.setdefault r key val) key2 = Record.get r key2 := by
  unfold Record.setdefault
  cases hg : Record.get r key with
  | some w => rfl
  | none =>
      rw [Record.get_append]
      cases hg2 : Record.get r key2 with
      | some w => rfl
      | none => simp [Record.get, h]

theorem Record.get_setdefault_of_some (r : Record) (key : String) (val w : Json)
    (h : Record.get r key = some w) :
    Record.get (Record.setdefault r key val) key = some w := by
  unfold Record.setdefault
  rw [h]
  exact h

theorem Record.get_setdefault_of_none (r : Record) (key : String) (val : Json)
    (h : Record.get r key = none) :
    Record.get (Record.setdefault r key val) key = some val := by
  unfold Record.setdefault
  rw [h, Record.get_append, h]
  simp [Record.get]

/-- The integer "id" field of a record, when present: the values the create
handler collects (isinstance(item.get("id"), int)) and the comparison the
item handler makes (it.get("id") == item_id) both see exactly these. -/
def idField (r : Record) : Option Int :=
  match Record.get r "id" with
  | some (Json.int n) => some n
  | _ => none

/-- existing_ids in the create handler: the integer id fields of the loaded
records, records without an integer id skipped. -/
def existingIds (items : List Record) : List Int :=
  items.filterMap idField

/-- Largest element of a list of naturals (0 for the empty list); only used
as a termination measure for the id-assignment loop. -/
def maxNat (l : List Nat) : Nat := l.foldr max 0

theorem le_maxNat (l : List Nat) (x : Nat) (h : x ∈ l) : x ≤ maxNat l := by
  induction l with
  | nil => cases h
  | cons a rest ih =>
      rcases List.mem_cons.mp h with h1 | h2
      · subst h1
        exact Nat.le_max_left _ _
      · exact le_trans (ih h2) (Nat.le_max_right _ _)

/-- The id-assignment loop of the create handler:
next_id = 1; while next_id in existing_ids: next_id += 1.
The loop counter stays a positive natural; membership is tested in the
integer id list. -/
def nextIdLoop (ids : List Int) (n : Nat) : Nat :=
  if h : (n : Int) ∈ ids then nextIdLoop ids (n + 1) else n
termination_by maxNat (ids.map Int.toNat) + 1 - n
decreasing_by
  have hmem : n ∈ ids.map Int.toNat :=
    List.mem_map.mpr ⟨(n : Int), h, Int.toNat_natCast n⟩
  have := le_maxNat _ _ hmem
  omega

/-- The id the create handler assigns, given the loaded records. -/
def assignedId (items : List Record) : Int :=
  (nextIdLoop (existingIds items) 1 : Int)

theorem nextIdLoop_not_mem (ids : List Int) (n : Nat) :
    ((nextIdLoop ids n : Nat) : Int) ∉ ids := by
  induction n using nextIdLoop.induct ids with
  | case1 n h ih => rwa [nextIdLoop, dif_pos h]
  | case2 n h => rwa [nextIdLoop, dif_neg h]

theorem nextIdLoop_ge (ids : List Int) (n : Nat) : n ≤ nextIdLoop ids n := by
  induction n using nextIdLoop.induct ids with
  | case1 n h ih =>
      rw [nextIdLoop, dif_pos h]
      omega
  | case2 n h =>
      rw [nextIdLoop, dif_neg h]

theorem nextIdLoop_min (ids : List Int) (n : Nat) :
    ∀ m : Nat, n ≤ m → m < nextIdLoop ids n → (m : Int) ∈ ids := by
  induction n using nextIdLoop.induct ids with
  | case1 n h ih =>
      intro m h1 h2
      rw [nextIdLoop, dif_pos h] at h2
      by_cases hm : m = n
      · subst hm
        exact h
      · exact ih m (by omega) h2
  | case2 n h =>
      intro m h1 h2
      rw [nextIdLoop, dif_neg h] at h2
      omega

/-- The request body as the handlers observe it: absent or empty bytes
(request.data falsy), bytes that fail JSON parsing (request.get_json raises
BadRequest inside the try block of the handler, and the blanket except
turns it into a 500), or a parsed JSON value; a body holding the JSON
literal null parses to Python None and hits the explicit None check. -/
inductive ReqBody where
  | empty : ReqBody
  | malformed : ReqBody
  | json : Json → ReqBody

/-- Outcome of one handler call: HTTP status, JSON response body, the list
handed to save_json, and whether save_json was called at all. When saved is
false the on-disk collection is untouched. -/
structure OpResult where
  status : Nat
  respBody : Json
  items : List Record
  saved : Bool

def errorResp (msg : String) : Json := Json.obj [("error", Json.str msg)]

/-- new_item["id"] = next_id in the create handler. -/
def withAssignedId (items : List Record) (r : Record) : Record :=
  Record.set r "id" (Json.int (assignedId items))

/-- if "created_at" not in new_item: new_item["created_at"] = ts. -/
def withCreatedAt (r : Record) (ts : String) : Record :=
  match Record.get r "created_at" with
  | some _ => r
  | none => Record.set r "created_at" (Json.str ts)

/-- The setdefault chain the create handler runs when module == "tools". -/
def toolsDefaults (r : Record) : Record :=
  Record.setdefault (Record.setdefault (Record.setdefault (Record.setdefault
    r "admin" (Json.bool false)) "autostart" (Json.bool false))
    "tags" (Json.arr [])) "favorite" (Json.bool false)

/-- The setdefault chain the create handler runs when module == "faq". -/
def faqDefaults (r : Record) : Record :=
  Record.setdefault (Record.setdefault (Record.setdefault
    r "tags" (Json.arr [])) "favorite" (Json.bool false))
    "attachments" (Json.arr [])

/-- The record the POST /api/module handler builds from a parsed JSON
object body r: id assigned by the gap-filling loop, created_at injected
when absent, then the per-collection setdefault chains for tools and faq. -/
def createdRecord (module : String) (items : List Record) (r : Record)
    (ts : String) : Record :=
  let r2 := withCreatedAt (withAssignedId items r) ts
  let r3 := if module = "tools" then toolsDefaults r2 else r2
  if module = "faq" then faqDefaults r3 else r3

/-- The POST branch of module_list in main.py. ts is the string
get_timestamp_iso returns at this moment; saveOk is the value save_json
would return, which the handler discards. A body that fails to parse makes
request.get_json raise BadRequest, and a parsed body that is neither an
object nor null makes the item assignment new_item["id"] = next_id raise a
TypeError; both land in the surrounding except, which answers 500 with
the message "Fehler beim Erstellen: " followed by str of the exception
(abbreviated here, no theorem reads the 500 text). -/
def createOp (module : String) (items : List Record) (body : ReqBody)
    (ts : String) (saveOk : Bool) : OpResult :=
  match body with
  | ReqBody.empty => ⟨400, errorResp "Leerer Request-Body", items, false⟩
  | ReqBody.malformed =>
      ⟨500, errorResp "Fehler beim Erstellen: BadRequest", items, false⟩
  | ReqBody.json Json.null => ⟨400, errorResp "Ungültiges JSON", items, false⟩
  | ReqBody.json (Json.obj r) =>
      let rec2 := createdRecord module items r ts
      ⟨201, Json.obj rec2, items ++ [rec2], true⟩
  | ReqBody.json _ => ⟨500, errorResp "Fehler beim Erstellen: TypeError", items, false⟩

/-- Index of the first record whose id matches the path id: next((i for i,
it in enumerate(items) if it.get("id") == item_id), None). The Python ==
against the integer item_id holds exactly when the field is that integer. -/
def findIdxById : List Record → Int → Option Nat
  | [], _ => none
  | it :: rest, iid =>
      if idField it = some iid then some 0
      else (findIdxById rest iid).map (fun i => i + 1)

/-- The GET branch of module_item in main.py. -/
def fetchOp (items : List Record) (iid : Int) : OpResult :=
  match findIdxById items iid with
  | none => ⟨404, errorResp "Nicht gefunden", items, false⟩
  | some idx => ⟨200, Json.obj (items.getD idx []), items, false⟩

/-- The DELETE branch of module_item in main.py: items.pop(idx) then save. -/
def deleteOp (items : List Record) (iid : Int) (saveOk : Bool) : OpResult :=
  match findIdxById items iid with
  | none => ⟨404, errorResp "Nicht gefunden", items, false⟩
  | some idx => ⟨200, Json.obj [("success", Json.bool true)], items.eraseIdx idx, true⟩

/-- The PUT branch of module_item in main.py: the not-found check runs
before any look at the body; on a parsed object the handler forces
updated_item["id"] = item_id and overwrites the slot. A body that fails to
parse makes request.get_json raise BadRequest, and a parsed body that is
neither an object nor null makes that item assignment raise a TypeError;
both land in the except, which answers 500 with "Fehler beim
Aktualisieren: " followed by str of the exception (abbreviated here, no
theorem reads the 500 text). -/
def replaceOp (items : List Record) (iid : Int) (body : ReqBody)
    (saveOk : Bool) : OpResult :=
  match findIdxById items iid with
  | none => ⟨404, errorResp "Nicht gefunden", items, false⟩
  | some idx =>
      match body with
      | ReqBody.empty => ⟨400, errorResp "Leerer Request-Body", items, false⟩
      | ReqBody.malformed =>
          ⟨500, errorResp "Fehler beim Aktualisieren: BadRequest", items, false⟩
      | ReqBody.json Json.null => ⟨400, errorResp "Ungültiges JSON", items, false⟩
      | ReqBody.json (Json.obj u) =>
          let u2 := Record.set u "id" (Json.int iid)
          ⟨200, Json.obj u2, items.set idx u2, true⟩
      | ReqBody.json _ =>
          ⟨500, errorResp "Fehler beim Aktualisieren: TypeError", items, false⟩

theorem findIdxById_eq_none_iff (items : List Record) (iid : Int) :
    findIdxById items iid = none ↔ ∀ r ∈ items, idField r ≠ some iid := by
  induction items with
  | nil => simp [findIdxById]
  | cons it rest ih =>
      by_cases h : idField it = some iid
      · simp [findIdxById, h]
      · simp [findIdxById, h, ih]

theorem findIdxById_some_lt (items : List Record) (iid : Int) (idx : Nat)
    (h : findIdxById items iid = some idx) : idx < items.length := by
  induction items generalizing idx with
  | nil => simp [findIdxById] at h
  | cons it rest ih =>
      by_cases hm : idField it = some iid
      · simp [findIdxById, hm] at h
        simp [← h]
      · simp [findIdxById, hm] at h
        obtain ⟨j, hj, rfl⟩ := h
        have := ih j hj
        simp
        omega

theorem findIdxById_some_matches (items : List Record) (iid : Int) (idx : Nat)
    (h : findIdxById items iid = some idx) :
    idField (items.getD idx []) = some iid := by
  induction items generalizing idx with
  | nil => simp [findIdxById] at h
  | cons it rest ih =>
      by_cases hm : idField it = some iid
      · simp [findIdxById, hm] at h
        simp [← h, hm]
      · simp [findIdxById, hm] at h
        obtain ⟨j, hj, rfl⟩ := h
        simpa using ih j hj

theorem List.set_getD_self {α : Type _} (l : List α) (idx : Nat) (d : α)
    (h : idx < l.length) : l.set idx (l.getD idx d) = l := by
  induction l generalizing idx with
  | nil => simp at h
  | cons a rest ih =>
      cases idx with
      | zero => simp
      | succ j =>
          simp at h
          have := ih j (by omega)
          simp [List.getD] at this
          simp [List.set, this]

theorem withAssignedId_get_id (items : List Record) (r : Record) :
    Record.get (withAssignedId items r) "id" = some (Json.int (assignedId items)) :=
  Record.get_set_same r "id" _

theorem withAssignedId_get_ne (items : List Record) (r : Record) (key : String)
    (h : key ≠ "id") :
    Record.get (withAssignedId items r) key = Record.get r key :=
  Record.get_set_ne r "id" key _ (fun he => h he.symm)

theorem withCreatedAt_get_ne (r : Record) (ts : String) (key : String)
    (h : key ≠ "created_at") :
    Record.get (withCreatedAt r ts) key = Record.get r key := by
  unfold withCreatedAt
  cases hg : Record.get r "created_at" with
  | some w => rfl
  | none => exact Record.get_set_ne r "created_at" key _ (fun he => h he.symm)

theorem withCreatedAt_get_of_some (r : Record) (ts : String) (w : Json)
    (h : Record.get r "created_at" = some w) :
    Record.get (withCreatedAt r ts) "created_at" = some w := by
  unfold withCreatedAt
  rw [h]
  exact h

theorem withCreatedAt_get_of_none (r : Record) (ts : String)
    (h : Record.get r "created_at" = none) :
    Record.get (withCreatedAt r ts) "created_at" = some (Json.str ts) := by
  unfold withCreatedAt
  rw [h]
  exact Record.get_set_same r "created_at" _

theorem toolsDefaults_get_ne (r : Record) (key : String)
    (h1 : key ≠ "admin") (h2 : key ≠ "autostart") (h3 : key ≠ "tags")
    (h4 : key ≠ "favorite") :
    Record.get (toolsDefaults r) key = Record.get r key := by
  unfold toolsDefaults
  rw [Record.get_setdefault_ne _ _ _ _ (fun he => h4 he.symm),
    Record.get_setdefault_ne _ _ _ _ (fun he => h3 he.symm),
    Record.get_setdefault_ne _ _ _ _ (fun he => h2 he.symm),
    Record.get_setdefault_ne _ _ _ _ (fun he => h1 he.symm)]

theorem faqDefaults_get_ne (r : Record) (key : String)
    (h1 : key ≠ "tags") (h2 : key ≠ "favorite") (h3 : key ≠ "attachments") :
    Record.get (faqDefaults r) key = Record.get r key := by
  unfold faqDefaults
  rw [Record.get_setdefault_ne _ _ _ _ (fun he => h3 he.symm),
    Record.get_setdefault_ne _ _ _ _ (fun he => h2 he.symm),
    Record.get_setdefault_ne _ _ _ _ (fun he => h1 he.symm)]

theorem createdRecord_get_id (module : String) (items : List Record)
    (r : Record) (ts : String) :
    Record.get (createdRecord module items r ts) "id" =
      some (Json.int (assignedId items)) := by
  have base : Record.get (withCreatedAt (withAssignedId items r) ts) "id" =
      some (Json.int (assignedId items)) := by
    rw [withCreatedAt_get_ne _ _ _ (by decide), withAssignedId_get_id]
  simp only [createdRecord]
  by_cases hf : module = "faq"
  · rw [if_pos hf, if_neg (by rw [hf]; decide),
      faqDefaults_get_ne _ _ (by decide) (by decide) (by decide)]
    exact base
  · rw [if_neg hf]
    by_cases ht : module = "tools"
    · rw [if_pos ht,
        toolsDefaults_get_ne _ _ (by decide) (by decide) (by decide) (by decide)]
      exact base
    · rw [if_neg ht]
      exact base

/-- k is the smallest positive integer not occurring in ids. -/
def isLeastFreeId (ids : List Int) (k : Int) : Prop :=
  0 < k ∧ k ∉ ids ∧ ∀ m : Int, 0 < m → m < k → m ∈ ids

theorem assignedId_least (items : List Record) :
    isLeastFreeId (existingIds items) (assignedId items) := by
  unfold assignedId isLeastFreeId
  refine ⟨?_, nextIdLoop_not_mem _ 1, ?_⟩
  · have := nextIdLoop_ge (existingIds items) 1
    omega
  · intro m hm hlt
    have hm0 : m = ((m.toNat : Nat) : Int) := by omega
    have h1 : 1 ≤ m.toNat := by omega
    have h2 : m.toNat < nextIdLoop (existingIds items) 1 := by omega
    rw [hm0]
    exact nextIdLoop_min _ 1 m.toNat h1 h2

/-- C1: a create with a parsed JSON object body succeeds with 201, appends
one record, and that record's id field is the smallest positive integer not
among the integer id fields of the loaded records. -/
theorem create_assigns_smallest_free_positive_id (module : String)
    (items : List Record) (r : Record) (ts : String) (saveOk : Bool) :
    (createOp module items (ReqBody.json (Json.obj r)) ts saveOk).status = 201 ∧
    (createOp module items (ReqBody.json (Json.obj r)) ts saveOk).items =
      items ++ [createdRecord module items r ts] ∧
    Record.get (createdRecord module items r ts) "id" =
      some (Json.int (assignedId items)) ∧
    isLeastFreeId (existingIds items) (assignedId items) :=
  ⟨rfl, rfl, createdRecord_get_id module items r ts, assignedId_least items⟩

/-- Intermediate stores of the C1 scenario: three creates into an empty
tickets collection, then deleting id 2. -/
def c1Store1 : List Record :=
  (createOp "tickets" [] (ReqBody.json (Json.obj [("name", Json.str "a")])) "t1" true).items

def c1Store2 : List Record :=
  (createOp "tickets" c1Store1 (ReqBody.json (Json.obj [("name", Json.str "b")])) "t2" true).items

def c1Store3 : List Record :=
  (createOp "tickets" c1Store2 (ReqBody.json (Json.obj [("name", Json.str "c")])) "t3" true).items

/-- The store after deleting the record with id 2 from ids 1, 2, 3. -/
def c1Store4 : List Record := (deleteOp c1Store3 2 true).items

/-- Witness for C1 at the spec scenario: after creating ids 1, 2, 3 and
deleting id 2, the next create receives id 2 (gap-filling), not 4. -/
theorem create_assigns_smallest_free_positive_id_witness :
    (createOp "tickets" c1Store4 (ReqBody.json (Json.obj [("name", Json.str "d")]))
      "t4" true).status = 201 ∧
    Record.get (createdRecord "tickets" c1Store4 [("name", Json.str "d")] "t4") "id" =
      some (Json.int 2) ∧
    isLeastFreeId (existingIds c1Store4) 2 := by
  have h := create_assigns_smallest_free_positive_id "tickets" c1Store4
    [("name", Json.str "d")] "t4" true
  have e4 : existingIds c1Store4 = [1, 3] := by
    simp [c1Store4, c1Store3, c1Store2, c1Store1, createOp, createdRecord,
      withAssignedId, withCreatedAt, toolsDefaults, faqDefaults, assignedId,
      existingIds, idField, Record.get, Record.set, Record.setdefault,
      deleteOp, findIdxById, nextIdLoop]
  have ha : assignedId c1Store4 = 2 := by
    simp [assignedId, e4, nextIdLoop]
  exact ⟨h.1, by rw [h.2.2.1, ha], by rw [← ha]; exact h.2.2.2⟩

/-- C2: a replace at a present id with a parsed JSON object body answers
200 and stores and returns the body with its id field forced to the path
id; any id value inside the submitted body is overwritten. -/
theorem replace_forces_path_id (items : List Record) (iid : Int) (idx : Nat)
    (u : Record) (saveOk : Bool)
    (h : findIdxById items iid = some idx) :
    (replaceOp items iid (ReqBody.json (Json.obj u)) saveOk).status = 200 ∧
    (replaceOp items iid (ReqBody.json (Json.obj u)) saveOk).respBody =
      Json.obj (Record.set u "id" (Json.int iid)) ∧
    (replaceOp items iid (ReqBody.json (Json.obj u)) saveOk).items =
      items.set idx (Record.set u "id" (Json.int iid)) ∧
    Record.get (Record.set u "id" (Json.int iid)) "id" = some (Json.int iid) := by
  unfold replaceOp
  rw [h]
  exact ⟨rfl, rfl, rfl, Record.get_set_same u "id" _⟩

/-- Witness for C2 at the spec example: replacing id 5 with a body whose id
claims 99 stores a record whose id is still 5. -/
theorem replace_forces_path_id_witness :
    (replaceOp [[("id", Json.int 5), ("name", Json.str "old")]] 5
      (ReqBody.json (Json.obj [("id", Json.int 99), ("name", Json.str "x")])) true).items =
      [[("id", Json.int 5), ("name", Json.str "x")]] ∧
    Record.get [("id", Json.int 5), ("name", Json.str "x")] "id" = some (Json.int 5) := by
  have h := replace_forces_path_id [[("id", Json.int 5), ("name", Json.str "old")]] 5 0
    [("id", Json.int 99), ("name", Json.str "x")] true
    (by simp [findIdxById, idField, Record.get])
  refine ⟨?_, rfl⟩
  rw [h.2.2.1]
  rfl

theorem List.getD_mem_of_lt {α : Type _} (l : List α) (i : Nat) (d : α)
    (h : i < l.length) : l.getD i d ∈ l := by
  induction l generalizing i with
  | nil => simp at h
  | cons a rest ih =>
      cases i with
      | zero => simp
      | succ j =>
          simp at h
          exact List.mem_cons_of_mem a (ih j (by omega))

/-- C7: delete answers 404 exactly when no record carries the requested id,
and then leaves the collection untouched without saving; otherwise it
answers 200, removes exactly the first record carrying the id while keeping
the order of the remaining records, and hands the full remaining list to
save_json. -/
theorem delete_not_found_iff_no_id (items : List Record) (iid : Int)
    (saveOk : Bool) :
    ((deleteOp items iid saveOk).status = 404 ↔
      ∀ r ∈ items, idField r ≠ some iid) ∧
    ((deleteOp items iid saveOk).status = 404 →
      (deleteOp items iid saveOk).items = items ∧
      (deleteOp items iid saveOk).saved = false) ∧
    (∀ idx, findIdxById items iid = some idx →
      (deleteOp items iid saveOk).status = 200 ∧
      idField (items.getD idx []) = some iid ∧
      (deleteOp items iid saveOk).items = items.take idx ++ items.drop (idx + 1) ∧
      (deleteOp items iid saveOk).saved = true) := by
  cases hf : findIdxById items iid with
  | none =>
      refine ⟨?_, ?_, ?_⟩
      · constructor
        · intro _
          exact (findIdxById_eq_none_iff items iid).mp hf
        · intro _
          unfold deleteOp
          rw [hf]
      · intro _
        unfold deleteOp
        rw [hf]
        exact ⟨rfl, rfl⟩
      · intro idx hidx
        cases hidx
  | some idx =>
      have hstat : (deleteOp items iid saveOk).status = 200 := by
        unfold deleteOp
        rw [hf]
      refine ⟨?_, ?_, ?_⟩
      · constructor
        · intro h4
          rw [hstat] at h4
          cases h4
        · intro hno
          exfalso
          have hm := findIdxById_some_matches items iid idx hf
          have hlt := findIdxById_some_lt items iid idx hf
          exact hno _ (List.getD_mem_of_lt items idx [] hlt) hm
      · intro h4
        rw [hstat] at h4
        cases h4
      · intro idx2 hidx2
        injection hidx2 with he
        subst he
        refine ⟨hstat, findIdxById_some_matches items iid idx hf, ?_, ?_⟩
        · unfold deleteOp
          rw [hf]
          exact List.eraseIdx_eq_take_drop_succ items idx
        · unfold deleteOp
          rw [hf]

/-- Witness for C7: deleting id 2 from records with ids 1, 2, 3 removes
exactly the middle record; deleting from an empty store answers 404. -/
theorem delete_not_found_iff_no_id_witness :
    (deleteOp [[("id", Json.int 1)], [("id", Json.int 2)], [("id", Json.int 3)]]
      2 true).items = [[("id", Json.int 1)], [("id", Json.int 3)]] ∧
    (deleteOp ([] : List Record) 2 true).status = 404 := by
  have h := delete_not_found_iff_no_id
    [[("id", Json.int 1)], [("id", Json.int 2)], [("id", Json.int 3)]] 2 true
  have h0 := delete_not_found_iff_no_id ([] : List Record) 2 true
  refine ⟨?_, ?_⟩
  · have := (h.2.2 1 (by simp [findIdxById, idField, Record.get])).2.2.1
    rw [this]
    rfl
  · exact h0.1.mpr (by simp)

/-- C9: the handlers discard the return value of save_json, so a failed
disk write (saveOk = false) yields the same status and response as a
successful one: 201 for create, 200 for replace and delete on a present id;
in each case the save was attempted. -/
theorem save_failure_still_reports_success (module : String)
    (items : List Record) (r u : Record) (ts : String) (iid : Int) (idx : Nat)
    (h : findIdxById items iid = some idx) :
    ((createOp module items (ReqBody.json (Json.obj r)) ts false).status = 201 ∧
      (createOp module items (ReqBody.json (Json.obj r)) ts false).saved = true ∧
      ∀ saveOk, createOp module items (ReqBody.json (Json.obj r)) ts saveOk =
        createOp module items (ReqBody.json (Json.obj r)) ts true) ∧
    ((replaceOp items iid (ReqBody.json (Json.obj u)) false).status = 200 ∧
      (replaceOp items iid (ReqBody.json (Json.obj u)) false).saved = true ∧
      ∀ saveOk, replaceOp items iid (ReqBody.json (Json.obj u)) saveOk =
        replaceOp items iid (ReqBody.json (Json.obj u)) true) ∧
    ((deleteOp items iid false).status = 200 ∧
      (deleteOp items iid false).saved = true ∧
      ∀ saveOk, deleteOp items iid saveOk = deleteOp items iid true) := by
  refine ⟨⟨rfl, rfl, fun _ => rfl⟩, ?_, ?_⟩
  · unfold replaceOp
    rw [h]
    exact ⟨rfl, rfl, fun _ => rfl⟩
  · unfold deleteOp
    rw [h]
    exact ⟨rfl, rfl, fun _ => rfl⟩

/-- Witness for C9 at a one-record store. -/
theorem save_failure_still_reports_success_witness :
    (createOp "tickets" [[("id", Json.int 1)]]
      (ReqBody.json (Json.obj [("name", Json.str "x")])) "t1" false).status = 201 ∧
    (replaceOp [[("id", Json.int 1)]] 1
      (ReqBody.json (Json.obj [("name", Json.str "y")])) false).status = 200 ∧
    (deleteOp [[("id", Json.int 1)]] 1 false).status = 200 := by
  have h := save_failure_still_reports_success "tickets" [[("id", Json.int 1)]]
    [("name", Json.str "x")] [("name", Json.str "y")] "t1" 1 0
    (by simp [findIdxById, idField, Record.get])
  exact ⟨h.1.1, h.2.1.1, h.2.2.1⟩

/-- C10: in the item handler the not-found check runs before any body
validation: at an id no record carries, PUT answers 404 whatever the body
(so never 400) and DELETE answers 404, and the collection is untouched. -/
theorem not_found_precedes_body_validation (items : List Record) (iid : Int)
    (body : ReqBody) (saveOk : Bool)
    (h : ∀ r ∈ items, idField r ≠ some iid) :
    (replaceOp items iid body saveOk).status = 404 ∧
    (replaceOp items iid body saveOk).status ≠ 400 ∧
    (replaceOp items iid body saveOk).items = items ∧
    (replaceOp items iid body saveOk).saved = false ∧
    (deleteOp items iid saveOk).status = 404 ∧
    (deleteOp items iid saveOk).items = items := by
  have hf : findIdxById items iid = none := (findIdxById_eq_none_iff items iid).mpr h
  have h1 : replaceOp items iid body saveOk =
      ⟨404, errorResp "Nicht gefunden", items, false⟩ := by
    unfold replaceOp
    rw [hf]
  have h2 : deleteOp items iid saveOk =
      ⟨404, errorResp "Nicht gefunden", items, false⟩ := by
    unfold deleteOp
    rw [hf]
  rw [h1, h2]
  exact ⟨rfl, (by decide : (404 : Nat) ≠ 400), rfl, rfl, rfl, rfl⟩

/-- Witness for C10: a PUT with an empty body at a missing id answers 404,
not 400. -/
theorem not_found_precedes_body_validation_witness :
    (replaceOp ([] : List Record) 1 ReqBody.empty true).status = 404 ∧
    (replaceOp ([] : List Record) 1 ReqBody.empty true).status ≠ 400 := by
  have h := not_found_precedes_body_validation ([] : List Record) 1
    ReqBody.empty true (by simp)
  exact ⟨h.1, h.2.1⟩

/-- C3 as stated is refuted twice: a replace request with an empty body at
an id absent from the collection answers 404, not 400, because the
not-found check of the item handler runs before any body validation; and a
create request with a malformed body answers 500, not 400, because the
BadRequest that request.get_json raises is caught by the blanket except of
the handler. -/
theorem empty_or_malformed_body_counterexample :
    (replaceOp ([] : List Record) 1 ReqBody.empty true).status = 404 ∧
    (replaceOp ([] : List Record) 1 ReqBody.empty true).status ≠ 400 ∧
    (createOp "tools" ([] : List Record) ReqBody.malformed "t" true).status = 500 ∧
    (createOp "tools" ([] : List Record) ReqBody.malformed "t" true).status ≠ 400 :=
  ⟨rfl, fun h => (by decide : (404 : Nat) ≠ 400) h,
    rfl, fun h => (by decide : (500 : Nat) ≠ 400) h⟩

/-- C3 amended: an empty body on create answers 400 and leaves the
collection unmodified, and likewise on replace when a record with the
requested id exists; a malformed body on either instead answers 500 — the
BadRequest from request.get_json is caught by the blanket except — again
leaving the collection unmodified; a replace at a missing id answers 404
for every body, also leaving the collection unmodified. -/
theorem invalid_body_rejected_collection_unmodified (module : String)
    (items : List Record) (ts : String) (saveOk : Bool) (iid : Int) (idx : Nat) :
    ((createOp module items ReqBody.empty ts saveOk).status = 400 ∧
      (createOp module items ReqBody.empty ts saveOk).items = items ∧
      (createOp module items ReqBody.empty ts saveOk).saved = false) ∧
    ((createOp module items ReqBody.malformed ts saveOk).status = 500 ∧
      (createOp module items ReqBody.malformed ts saveOk).items = items ∧
      (createOp module items ReqBody.malformed ts saveOk).saved = false) ∧
    (findIdxById items iid = some idx →
      ((replaceOp items iid ReqBody.empty saveOk).status = 400 ∧
        (replaceOp items iid ReqBody.empty saveOk).items = items ∧
        (replaceOp items iid ReqBody.empty saveOk).saved = false) ∧
      ((replaceOp items iid ReqBody.malformed saveOk).status = 500 ∧
        (replaceOp items iid ReqBody.malformed saveOk).items = items ∧
        (replaceOp items iid ReqBody.malformed saveOk).saved = false)) ∧
    (findIdxById items iid = none → ∀ body : ReqBody,
      (replaceOp items iid body saveOk).status = 404 ∧
      (replaceOp items iid body saveOk).items = items ∧
      (replaceOp items iid body saveOk).saved = false) := by
  refine ⟨⟨rfl, rfl, rfl⟩, ⟨rfl, rfl, rfl⟩, ?_, ?_⟩
  · intro hfind
    refine ⟨?_, ?_⟩ <;>
      · unfold replaceOp
        rw [hfind]
        exact ⟨rfl, rfl, rfl⟩
  · intro hfind body
    unfold replaceOp
    rw [hfind]
    exact ⟨rfl, rfl, rfl⟩

/-- Witness for the amended C3 at a one-record store: empty bodies give
400, malformed bodies give 500, the store stays as it was. -/
theorem invalid_body_rejected_collection_unmodified_witness :
    (createOp "tools" [[("id", Json.int 1)]] ReqBody.empty "t" true).status = 400 ∧
    (createOp "tools" [[("id", Json.int 1)]] ReqBody.malformed "t" true).status = 500 ∧
    (replaceOp [[("id", Json.int 1)]] 1 ReqBody.empty true).status = 400 ∧
    (replaceOp [[("id", Json.int 1)]] 1 ReqBody.malformed true).status = 500 ∧
    (replaceOp [[("id", Json.int 1)]] 1 ReqBody.malformed true).items =
      [[("id", Json.int 1)]] := by
  have h := invalid_body_rejected_collection_unmodified "tools"
    [[("id", Json.int 1)]] "t" true 1 0
  have hfind : findIdxById [[("id", Json.int 1)]] 1 = some 0 := by
    simp [findIdxById, idField, Record.get]
  exact ⟨h.1.1, h.2.1.1, (h.2.2.1 hfind).1.1, (h.2.2.1 hfind).2.1,
    (h.2.2.1 hfind).2.2.1⟩

/-- The §3 invariant: every record carries an integer id, these ids are
positive, and within the collection they are pairwise distinct. -/
def uniquePosIds (items : List Record) : Prop :=
  (∀ r ∈ items, ∃ n : Int, 0 < n ∧ idField r = some n) ∧
  (existingIds items).Nodup

theorem idField_eq_some_iff (r : Record) (n : Int) :
    idField r = some n ↔ Record.get r "id" = some (Json.int n) := by
  unfold idField
  cases hg : Record.get r "id" with
  | none => simp
  | some v => cases v <;> simp

theorem existingIds_set (items : List Record) (idx : Nat) (u : Record)
    (h : idField u = idField (items.getD idx [])) :
    existingIds (items.set idx u) = existingIds items := by
  induction items generalizing idx with
  | nil => simp
  | cons a rest ih =>
      cases idx with
      | zero =>
          have h0 : idField u = idField a := by simpa [List.getD] using h
          cases hfa : idField a <;>
            simp [existingIds, List.filterMap_cons, h0, hfa]
      | succ j =>
          have hj : idField u = idField (rest.getD j []) := by
            simpa [List.getD] using h
          have hrec := ih j hj
          simp only [existingIds] at hrec ⊢
          cases hfa : idField a <;>
            simp [List.filterMap_cons, hfa, hrec]

theorem uniquePosIds_after_create (module : String) (items : List Record)
    (r : Record) (ts : String) (h : uniquePosIds items) :
    uniquePosIds (items ++ [createdRecord module items r ts]) := by
  obtain ⟨hall, hnodup⟩ := h
  have hid : idField (createdRecord module items r ts) = some (assignedId items) :=
    (idField_eq_some_iff _ _).mpr (createdRecord_get_id module items r ts)
  have hk := assignedId_least items
  constructor
  · intro x hx
    rcases List.mem_append.mp hx with hx | hx
    · exact hall x hx
    · rw [List.mem_singleton.mp hx]
      exact ⟨assignedId items, hk.1, hid⟩
  · have he : existingIds (items ++ [createdRecord module items r ts]) =
        existingIds items ++ [assignedId items] := by
      simp [existingIds, List.filterMap_append, List.filterMap_cons, hid]
    rw [he]
    refine List.nodup_append.mpr ⟨hnodup, List.nodup_singleton _, ?_⟩
    intro a ha hb
    rw [List.mem_singleton.mp hb] at ha
    exact hk.2.1 ha

theorem uniquePosIds_after_replace (items : List Record) (iid : Int) (idx : Nat)
    (u : Record) (hfind : findIdxById items iid = some idx)
    (h : uniquePosIds items) :
    uniquePosIds (items.set idx (Record.set u "id" (Json.int iid))) := by
  obtain ⟨hall, hnodup⟩ := h
  have hlt := findIdxById_some_lt items iid idx hfind
  have hmatch := findIdxById_some_matches items iid idx hfind
  have hmem := List.getD_mem_of_lt items idx [] hlt
  have hpos : 0 < iid := by
    obtain ⟨n, hn, hfld⟩ := hall _ hmem
    rw [hmatch] at hfld
    injection hfld with he
    omega
  have hidu : idField (Record.set u "id" (Json.int iid)) = some iid :=
    (idField_eq_some_iff _ _).mpr (Record.get_set_same u "id" _)
  constructor
  · intro x hx
    rcases List.mem_or_eq_of_mem_set hx with hx | hx
    · exact hall x hx
    · rw [hx]
      exact ⟨iid, hpos, hidu⟩
  · rw [existingIds_set items idx _ (by rw [hidu, hmatch])]
    exact hnodup

theorem uniquePosIds_after_delete (items : List Record) (idx : Nat)
    (h : uniquePosIds items) : uniquePosIds (items.eraseIdx idx) := by
  obtain ⟨hall, hnodup⟩ := h
  have hsub : List.Sublist (items.eraseIdx idx) items :=
    List.eraseIdx_sublist items idx
  constructor
  · intro x hx
    exact hall x (hsub.subset hx)
  · exact hnodup.sublist (hsub.filterMap idField)

/-- C4: when every record of the collection carries a unique positive
integer id, each of create, replace and delete — with an arbitrary request
body and an arbitrary path id — leaves that invariant intact. -/
theorem crud_preserves_unique_positive_ids (module : String)
    (items : List Record) (bodyC bodyR : ReqBody) (ts : String)
    (saveOk : Bool) (iid : Int) (h : uniquePosIds items) :
    uniquePosIds (createOp module items bodyC ts saveOk).items ∧
    uniquePosIds (replaceOp items iid bodyR saveOk).items ∧
    uniquePosIds (deleteOp items iid saveOk).items := by
  refine ⟨?_, ?_, ?_⟩
  · cases bodyC with
    | empty => exact h
    | malformed => exact h
    | json v =>
        cases v with
        | null => exact h
        | bool b => exact h
        | int n => exact h
        | str s => exact h
        | arr l => exact h
        | obj r => exact uniquePosIds_after_create module items r ts h
  · cases hfind : findIdxById items iid with
    | none =>
        unfold replaceOp
        rw [hfind]
        exact h
    | some idx =>
        unfold replaceOp
        rw [hfind]
        cases bodyR with
        | empty => exact h
        | malformed => exact h
        | json v =>
            cases v with
            | null => exact h
            | bool b => exact h
            | int n => exact h
            | str s => exact h
            | arr l => exact h
            | obj u => exact uniquePosIds_after_replace items iid idx u hfind h
  · cases hfind : findIdxById items iid with
    | none =>
        unfold deleteOp
        rw [hfind]
        exact h
    | some idx =>
        unfold deleteOp
        rw [hfind]
        exact uniquePosIds_after_delete items idx h

/-- Witness for C4 at a one-record store with id 1. -/
theorem crud_preserves_unique_positive_ids_witness :
    uniquePosIds (createOp "tickets" [[("id", Json.int 1)]]
      (ReqBody.json (Json.obj [("name", Json.str "x")])) "t" true).items ∧
    uniquePosIds (deleteOp [[("id", Json.int 1)]] 1 true).items := by
  have hinv : uniquePosIds [[("id", Json.int 1)]] := by
    constructor
    · intro r hr
      rw [List.mem_singleton.mp hr]
      exact ⟨1, by decide, rfl⟩
    · simp [existingIds, idField, Record.get, List.filterMap_cons]
  have h := crud_preserves_unique_positive_ids "tickets" [[("id", Json.int 1)]]
    (ReqBody.json (Json.obj [("name", Json.str "x")]))
    (ReqBody.json (Json.obj [("name", Json.str "x")])) "t" true 1 hinv
  exact ⟨h.1, h.2.2⟩

/-- C5: replacing a record with the very record fetch returns leaves the
stored collection identical — same fields, same id; in particular no
created_at is injected, since replace never touches that field and the
fetched record already carries whatever it had. -/
theorem fetch_then_replace_identity (items : List Record) (iid : Int)
    (idx : Nat) (hfind : findIdxById items iid = some idx) :
    (fetchOp items iid).status = 200 ∧
    (fetchOp items iid).respBody = Json.obj (items.getD idx []) ∧
    (replaceOp items iid (ReqBody.json (Json.obj (items.getD idx []))) true).status = 200 ∧
    (replaceOp items iid (ReqBody.json (Json.obj (items.getD idx []))) true).items = items := by
  have hmatch := findIdxById_some_matches items iid idx hfind
  have hlt := findIdxById_some_lt items iid idx hfind
  have hget : Record.get (items.getD idx []) "id" = some (Json.int iid) :=
    (idField_eq_some_iff _ _).mp hmatch
  have hset : Record.set (items.getD idx []) "id" (Json.int iid) = items.getD idx [] :=
    Record.set_get_eq _ "id" _ hget
  refine ⟨?_, ?_, ?_, ?_⟩
  · unfold fetchOp
    rw [hfind]
  · unfold fetchOp
    rw [hfind]
  · unfold replaceOp
    rw [hfind]
  · unfold replaceOp
    rw [hfind]
    show items.set idx (Record.set (items.getD idx []) "id" (Json.int iid)) = items
    rw [hset]
    exact List.set_getD_self items idx [] hlt

/-- Witness for C5: the round trip at a record with id 3 and an existing
created_at field changes nothing. -/
theorem fetch_then_replace_identity_witness :
    (fetchOp [[("id", Json.int 3), ("created_at", Json.str "t0")]] 3).respBody =
      Json.obj [("id", Json.int 3), ("created_at", Json.str "t0")] ∧
    (replaceOp [[("id", Json.int 3), ("created_at", Json.str "t0")]] 3
      (ReqBody.json (Json.obj [("id", Json.int 3), ("created_at", Json.str "t0")]))
      true).items = [[("id", Json.int 3), ("created_at", Json.str "t0")]] := by
  have h := fetch_then_replace_identity
    [[("id", Json.int 3), ("created_at", Json.str "t0")]] 3 0
    (by simp [findIdxById, idField, Record.get])
  exact ⟨h.2.1, h.2.2.2⟩

theorem createdRecord_tools (items : List Record) (r : Record) (ts : String) :
    createdRecord "tools" items r ts =
      toolsDefaults (withCreatedAt (withAssignedId items r) ts) := by
  simp [createdRecord]

theorem createdRecord_faq (items : List Record) (r : Record) (ts : String) :
    createdRecord "faq" items r ts =
      faqDefaults (withCreatedAt (withAssignedId items r) ts) := by
  simp [createdRecord]

theorem createdRecord_of_ne (module : String) (h1 : module ≠ "tools")
    (h2 : module ≠ "faq") (items : List Record) (r : Record) (ts : String) :
    createdRecord module items r ts = withCreatedAt (withAssignedId items r) ts := by
  simp [createdRecord, h1, h2]

/-- Lookup of a key other than "id" and "created_at" passes unchanged
through the id assignment and the created_at injection. -/
theorem preDefaults_get_ne (items : List Record) (r : Record) (ts : String)
    (key : String) (h1 : key ≠ "id") (h2 : key ≠ "created_at") :
    Record.get (withCreatedAt (withAssignedId items r) ts) key =
      Record.get r key := by
  rw [withCreatedAt_get_ne _ _ _ h2, withAssignedId_get_ne _ _ _ h1]

/-- The record of the C8 scenario: POST /api/faq with question and answer
into an empty collection. -/
def faqScenarioRecord (ts : String) : Record :=
  [("question", Json.str "Q"), ("answer", Json.str "A"), ("id", Json.int 1),
    ("created_at", Json.str ts), ("tags", Json.arr []),
    ("favorite", Json.bool false), ("attachments", Json.arr [])]

/-- C8: create injects the per-collection defaults when the submitted body
lacks them — admin, autostart, favorite false and empty tags for "tools";
empty tags, favorite false and empty attachments for "faq" — and the faq
scenario of the spec produces exactly the record with id 1, the submitted
fields, the timestamp, and the three faq defaults, with status 201. -/
theorem create_injects_collection_defaults (items : List Record) (r : Record)
    (ts : String) :
    (Record.get r "admin" = none →
      Record.get (createdRecord "tools" items r ts) "admin" = some (Json.bool false)) ∧
    (Record.get r "autostart" = none →
      Record.get (createdRecord "tools" items r ts) "autostart" = some (Json.bool false)) ∧
    (Record.get r "tags" = none →
      Record.get (createdRecord "tools" items r ts) "tags" = some (Json.arr [])) ∧
    (Record.get r "favorite" = none →
      Record.get (createdRecord "tools" items r ts) "favorite" = some (Json.bool false)) ∧
    (Record.get r "tags" = none →
      Record.get (createdRecord "faq" items r ts) "tags" = some (Json.arr [])) ∧
    (Record.get r "favorite" = none →
      Record.get (createdRecord "faq" items r ts) "favorite" = some (Json.bool false)) ∧
    (Record.get r "attachments" = none →
      Record.get (createdRecord "faq" items r ts) "attachments" = some (Json.arr [])) ∧
    (∀ ts2 : String, createOp "faq" []
        (ReqBody.json (Json.obj [("question", Json.str "Q"), ("answer", Json.str "A")]))
        ts2 true =
      ⟨201, Json.obj (faqScenarioRecord ts2), [faqScenarioRecord ts2], true⟩) := by
  have hpre : ∀ key : String, key ≠ "id" → key ≠ "created_at" →
      Record.get (withCreatedAt (withAssignedId items r) ts) key = Record.get r key :=
    fun key h1 h2 => preDefaults_get_ne items r ts key h1 h2
  refine ⟨?_, ?_, ?_, ?_, ?_, ?_, ?_, ?_⟩
  · intro h
    rw [createdRecord_tools]
    unfold toolsDefaults
    rw [Record.get_setdefault_ne _ _ _ _ (by decide),
      Record.get_setdefault_ne _ _ _ _ (by decide),
      Record.get_setdefault_ne _ _ _ _ (by decide)]
    exact Record.get_setdefault_of_none _ _ _
      ((hpre "admin" (by decide) (by decide)).trans h)
  · intro h
    rw [createdRecord_tools]
    unfold toolsDefaults
    rw [Record.get_setdefault_ne _ _ _ _ (by decide),
      Record.get_setdefault_ne _ _ _ _ (by decide)]
    exact Record.get_setdefault_of_none _ _ _
      ((Record.get_setdefault_ne _ _ _ _ (by decide)).trans
        ((hpre "autostart" (by decide) (by decide)).trans h))
  · intro h
    rw [createdRecord_tools]
    unfold toolsDefaults
    rw [Record.get_setdefault_ne _ _ _ _ (by decide)]
    exact Record.get_setdefault_of_none _ _ _
      ((Record.get_setdefault_ne _ _ _ _ (by decide)).trans
        ((Record.get_setdefault_ne _ _ _ _ (by decide)).trans
          ((hpre "tags" (by decide) (by decide)).trans h)))
  · intro h
    rw [createdRecord_tools]
    unfold toolsDefaults
    exact Record.get_setdefault_of_none _ _ _
      ((Record.get_setdefault_ne _ _ _ _ (by decide)).trans
        ((Record.get_setdefault_ne _ _ _ _ (by decide)).trans
          ((Record.get_setdefault_ne _ _ _ _ (by decide)).trans
            ((hpre "favorite" (by decide) (by decide)).trans h))))
  · intro h
    rw [createdRecord_faq]
    unfold faqDefaults
    rw [Record.get_setdefault_ne _ _ _ _ (by decide),
      Record.get_setdefault_ne _ _ _ _ (by decide)]
    exact Record.get_setdefault_of_none _ _ _
      ((hpre "tags" (by decide) (by decide)).trans h)
  · intro h
    rw [createdRecord_faq]
    unfold faqDefaults
    rw [Record.get_setdefault_ne _ _ _ _ (by decide)]
    exact Record.get_setdefault_of_none _ _ _
      ((Record.get_setdefault_ne _ _ _ _ (by decide)).trans
        ((hpre "favorite" (by decide) (by decide)).trans h))
  · intro h
    rw [createdRecord_faq]
    unfold faqDefaults
    exact Record.get_setdefault_of_none _ _ _
      ((Record.get_setdefault_ne _ _ _ _ (by decide)).trans
        ((Record.get_setdefault_ne _ _ _ _ (by decide)).trans
          ((hpre "attachments" (by decide) (by decide)).trans h)))
  · intro ts2
    have a0 : assignedId ([] : List Record) = 1 := by
      simp [assignedId, existingIds, nextIdLoop]
    have hrec : createdRecord "faq" []
        [("question", Json.str "Q"), ("answer", Json.str "A")] ts2 =
        faqScenarioRecord ts2 := by
      rw [createdRecord_faq]
      simp [withAssignedId, withCreatedAt, faqDefaults, a0, Record.set,
        Record.get, Record.setdefault, faqScenarioRecord]
    show OpResult.mk 201
      (Json.obj (createdRecord "faq" []
        [("question", Json.str "Q"), ("answer", Json.str "A")] ts2))
      ([] ++ [createdRecord "faq" []
        [("question", Json.str "Q"), ("answer", Json.str "A")] ts2]) true = _
    rw [hrec]
    rfl

/-- Witness for C8: a tools create without an admin field stores
admin=false, and the faq scenario yields exactly the specified record. -/
theorem create_injects_collection_defaults_witness :
    Record.get (createdRecord "tools" [] [("name", Json.str "x")] "t") "admin" =
      some (Json.bool false) ∧
    createOp "faq" [] (ReqBody.json (Json.obj [("question", Json.str "Q"),
        ("answer", Json.str "A")])) "t0" true =
      ⟨201, Json.obj (faqScenarioRecord "t0"), [faqScenarioRecord "t0"], true⟩ := by
  have h := create_injects_collection_defaults [] [("name", Json.str "x")] "t"
  exact ⟨h.1 rfl, h.2.2.2.2.2.2.2 "t0"⟩

/-- Broken-down wall-clock time: the fields of a Python time.struct_time
that the format %Y-%m-%dT%H:%M:%S.000Z reads. -/
structure Tm where
  year : Nat
  month : Nat
  day : Nat
  hour : Nat
  minute : Nat
  second : Nat

/-- Zero-padded two-digit rendering strftime uses for %m %d %H %M %S. -/
def pad2 (n : Nat) : String :=
  if n < 10 then "0" ++ toString n else toString n

/-- time.strftime with the format %Y-%m-%dT%H:%M:%S.000Z applied to a
broken-down time t: the trailing Z is a literal character of the format
string, not a computed zone designator. -/
def strftimeIsoZ (t : Tm) : String :=
  toString t.year ++ "-" ++ pad2 t.month ++ "-" ++ pad2 t.day ++ "T" ++
    pad2 t.hour ++ ":" ++ pad2 t.minute ++ ":" ++ pad2 t.second ++ ".000Z"

/-- Modelled from the Python time module: time.strftime called without a
time argument formats time.localtime(), the current UTC instant shifted
into the local zone of the server; at instants where the shift stays inside
the same day it adds the zone offset to the hour field. -/
def localtimeAt (utc : Tm) (offsetHours : Nat) : Tm :=
  { utc with hour := utc.hour + offsetHours }

/-- get_timestamp_iso of main.py, taken at the UTC instant utc on a server
whose zone lies offsetHours east of UTC: the handler formats the local
broken-down time, then appends the literal Z of the format string. -/
def get_timestamp_iso (utc : Tm) (offsetHours : Nat) : String :=
  strftimeIsoZ (localtimeAt utc offsetHours)

/-- C6: the conditional injection itself is as claimed — the handler sets
created_at exactly when the submitted body lacks it and preserves a present
value — but the injected string is the local wall-clock time with a literal
Z suffix, not the current UTC timestamp: on a server two hours east of UTC
(such as Europe/Berlin in summer) at the UTC instant 2026-10-12T12:00:00Z
the stored created_at reads 14:00:00.000Z while the UTC timestamp reads
12:00:00.000Z. -/
theorem created_at_uses_localtime_not_utc :
    get_timestamp_iso ⟨2026, 10, 12, 12, 0, 0⟩ 2 = "2026-10-12T14:00:00.000Z" ∧
    strftimeIsoZ ⟨2026, 10, 12, 12, 0, 0⟩ = "2026-10-12T12:00:00.000Z" ∧
    get_timestamp_iso ⟨2026, 10, 12, 12, 0, 0⟩ 2 ≠
      strftimeIsoZ ⟨2026, 10, 12, 12, 0, 0⟩ ∧
    Record.get (createdRecord "tickets" [] [("name", Json.str "x")]
        (get_timestamp_iso ⟨2026, 10, 12, 12, 0, 0⟩ 2)) "created_at" =
      some (Json.str "2026-10-12T14:00:00.000Z") ∧
    Record.get (createdRecord "tickets" []
        [("created_at", Json.str "keep"), ("name", Json.str "x")] "ignored")
        "created_at" = some (Json.str "keep") := by
  have h1 : get_timestamp_iso ⟨2026, 10, 12, 12, 0, 0⟩ 2 =
      "2026-10-12T14:00:00.000Z" := by
    rfl
  have h2 : strftimeIsoZ ⟨2026, 10, 12, 12, 0, 0⟩ =
      "2026-10-12T12:00:00.000Z" := by
    rfl
  refine ⟨h1, h2, ?_, ?_, ?_⟩
  · rw [h1, h2]
    decide
  · rw [createdRecord_of_ne "tickets" (by decide) (by decide), h1]
    exact withCreatedAt_get_of_none _ _
      ((withAssignedId_get_ne _ _ _ (by decide)).trans rfl)
  · rw [createdRecord_of_ne "tickets" (by decide) (by decide)]
    exact withCreatedAt_get_of_some _ _ _
      ((withAssignedId_get_ne _ _ _ (by decide)).trans rfl)
